import Mathlib

/-!
Shallow embedding of the commodities-pulse analytics and cache layer.

The fetch/transform layer (alpha-vantage.ts) is embedded as pure functions
over an explicit provider response: network I/O becomes a parameter of type
Except String CommodityData, where the error case models a rejected fetch or
a JSON body that fails to parse, and the field CommodityData.data is an
Option to model a JSON body in which the data array is missing (as in the
provider's non-2xx error payloads). Prices are rational numbers; the
square root in the volatility computation is Real.sqrt. JS Math.round x is
the floor of x + 1/2 and JS Math.floor is the floor.

The TTL cache (Cache in the second file) is embedded with an explicit store
(an association list keyed by strings, mirroring a Map with overwrite-on-set)
and an explicit clock: each call takes the current time in milliseconds.
The producer passed to Cache.get is an Except value: the error case models
a rejected promise. Cache.get returns, besides its result, the new store and
a flag recording whether the producer was invoked.
-/

deriving instance DecidableEq for Except

namespace CommoditiesPulse

/-- JS Math.round on a rational: floor of x + 1/2. -/
def jsRound (x : ℚ) : ℤ := Rat.floor (x + 1/2)

/-- Rounding to 2 decimals as the source does: Math.round (x * 100) / 100. -/
def round2 (x : ℚ) : ℚ := (jsRound (x * 100) : ℚ) / 100

/-- Rounding to 2 decimals on a real number (for the volatility value,
which involves a square root): Math.round (x * 100) / 100. -/
noncomputable def round2R (x : ℝ) : ℝ := ((⌊x * 100 + 1/2⌋ : ℤ) : ℝ) / 100

/-- One element of the provider's data array; the decimal string is embedded
as the rational number it denotes (parseFloat). -/
structure RawPoint where
  date : String
  value : ℚ
deriving DecidableEq

/-- The provider's JSON body. The data field is an Option: none models a
JSON body with no data array (the provider's error payloads). -/
structure CommodityData where
  name : String
  interval : String
  unit : String
  data : Option (List RawPoint)
deriving DecidableEq

structure CommodityPrice where
  name : String
  price : ℚ
  unit : String
  date : String
  interval : String
deriving DecidableEq

/-- Map of user-friendly names to Alpha Vantage function names. -/
def COMMODITIES : List (String × String) :=
  [("wti", "WTI"), ("brent", "BRENT"), ("natural_gas", "NATURAL_GAS"),
   ("copper", "COPPER"), ("aluminum", "ALUMINUM"), ("wheat", "WHEAT"),
   ("corn", "CORN"), ("coffee", "COFFEE"), ("cotton", "COTTON"),
   ("sugar", "SUGAR"), ("all", "ALL_COMMODITIES")]

structure CommodityInfo where
  category : String
  description : String
deriving DecidableEq

/-- User-friendly descriptions; note there is no entry for the key all. -/
def COMMODITY_INFO : List (String × CommodityInfo) :=
  [("wti", ⟨"Energy", "West Texas Intermediate Crude Oil"⟩),
   ("brent", ⟨"Energy", "Brent Crude Oil"⟩),
   ("natural_gas", ⟨"Energy", "Henry Hub Natural Gas"⟩),
   ("copper", ⟨"Metals", "Global Copper"⟩),
   ("aluminum", ⟨"Metals", "Global Aluminum"⟩),
   ("wheat", ⟨"Agriculture", "Global Wheat"⟩),
   ("corn", ⟨"Agriculture", "Global Corn"⟩),
   ("coffee", ⟨"Agriculture", "Global Coffee (Arabica)"⟩),
   ("cotton", ⟨"Agriculture", "Global Cotton"⟩),
   ("sugar", ⟨"Agriculture", "Global Sugar"⟩)]

/-- JS String.prototype.toLowerCase restricted to ASCII, which covers every
catalog key (Lean's own String.toLower is not kernel-reducible). -/
def jsToLower (s : String) : String := ⟨s.data.map Char.toLower⟩

/-- Record lookup (the bracket access on a plain JS object keyed by string). -/
def assocFind {β : Type} (k : String) : List (String × β) → Option β
  | [] => none
  | (k', v) :: rest => if k' = k then some v else assocFind k rest

/-! ## Analytics helpers (the calculate and get helpers of alpha-vantage.ts) -/

def calculateChange (current previous : ℚ) : ℚ :=
  (current - previous) / previous * 100

def calculateMA (prices : List ℚ) (period : ℕ) : Option ℚ :=
  if prices.length < period then none
  else some ((prices.take period).sum / (period : ℚ))

/-- The returns array built by the loop in calculateVolatility:
for i from 1 while i < min prices.length 30, push (p[i-1] - p[i]) / p[i]. -/
def volReturns (prices : List ℚ) : List ℚ :=
  (List.range' 1 (min prices.length 30 - 1)).map
    (fun i => (prices.getD (i - 1) 0 - prices.getD i 0) / prices.getD i 0)

/-- Population mean of a list of rationals (reduce add / length). -/
def listMean (l : List ℚ) : ℚ := l.sum / (l.length : ℚ)

/-- Population variance as computed in calculateVolatility. -/
def listVariance (l : List ℚ) : ℚ :=
  (l.map (fun r => (r - listMean l) ^ 2)).sum / (l.length : ℚ)

noncomputable def calculateVolatility (prices : List ℚ) : Option ℝ :=
  if prices.length < 7 then none
  else some (Real.sqrt ((listVariance (volReturns prices) : ℚ) : ℝ) * 100)

inductive VolLevel | low | medium | high | unknown
deriving DecidableEq

open Classical in
noncomputable def getVolatilityLevel (vol : Option ℝ) : VolLevel :=
  match vol with
  | none => .unknown
  | some v => if v < 1 then .low else if v < 3 then .medium else .high

inductive Signal | above | below | atMA | unknown
deriving DecidableEq

def getSignal (current : ℚ) (ma : Option ℚ) : Signal :=
  match ma with
  | none => .unknown
  | some m =>
    let diff := (current - m) / m * 100
    if diff > 1 then .above else if diff < -1 then .below else .atMA

inductive Trend | bullish | bearish | neutral | unknown
deriving DecidableEq

def getTrend (c7 c30 : Option ℚ) : Trend :=
  match c7, c30 with
  | some a, some b =>
    if a > 2 ∧ b > 0 then .bullish
    else if a < -2 ∧ b < 0 then .bearish
    else .neutral
  | _, _ => .unknown

/-! ## The per-series analysis fields of fetchAnalysis. prices is the parsed,
at-most-90-point price list data.data.slice(0, 90).map parseFloat. -/

def change7 (prices : List ℚ) : Option ℚ :=
  if 7 < prices.length then some (calculateChange (prices.getD 0 0) (prices.getD 7 0))
  else none

def change30 (prices : List ℚ) : Option ℚ :=
  if 30 < prices.length then some (calculateChange (prices.getD 0 0) (prices.getD 30 0))
  else none

def change90 (prices : List ℚ) : Option ℚ :=
  if 89 < prices.length then some (calculateChange (prices.getD 0 0) (prices.getD 89 0))
  else none

/-- The reported changes.day7 field: the change rounded to 2 decimals. -/
def day7 (prices : List ℚ) : Option ℚ := (change7 prices).map round2

def day30 (prices : List ℚ) : Option ℚ := (change30 prices).map round2

def day90 (prices : List ℚ) : Option ℚ := (change90 prices).map round2

/-- The reported signal.trend field: getTrend on the unrounded changes. -/
def trendOf (prices : List ℚ) : Trend := getTrend (change7 prices) (change30 prices)

/-- The reported volatility.daily field: rounded to 2 decimals when present. -/
noncomputable def volatilityDaily (prices : List ℚ) : Option ℝ :=
  (calculateVolatility prices).map round2R

/-! ## The fetch operations. The provider response is a parameter:
ok a parsed JSON body, error a rejected fetch or a JSON parse failure
(which in the source propagates as a rejection of the async function). -/

def fetchCommodity (commodity : String) (resp : Except String CommodityData) :
    Except String (Option CommodityPrice) :=
  match assocFind (jsToLower commodity) COMMODITIES with
  | none => .ok none
  | some _ =>
    match resp with
    | .error e => .error e
    | .ok data =>
      match data.data with
      | none => .ok none
      | some pts =>
        match pts with
        | [] => .ok none
        | latest :: _ =>
          .ok (some { name := data.name, price := latest.value, unit := data.unit,
                      date := latest.date, interval := data.interval })

inductive FetchResult
  | price (p : CommodityPrice)
  | failure (msg : String)
deriving DecidableEq

/-- fetchAllCommodities: iterate the catalog keys except all, sequentially;
a throw of the per-symbol fetch is caught and recorded as an error marker
with the thrown message; a null result is recorded as No data available.
The per-symbol provider responses are the parameter resp. -/
def fetchAllCommodities (resp : String → Except String CommodityData) :
    List (String × FetchResult) :=
  ((COMMODITIES.map Prod.fst).filter (fun k => k ≠ "all")).map
    (fun commodity =>
      (commodity,
        match fetchCommodity commodity (resp commodity) with
        | .ok (some p) => .price p
        | .ok none => .failure "No data available"
        | .error e => .failure e))

structure HistoricalPoint where
  date : String
  price : ℚ
deriving DecidableEq

def fetchHistorical (commodity : String) (resp : Except String CommodityData)
    (limit : ℕ) : Except String (Option (List HistoricalPoint)) :=
  match assocFind (jsToLower commodity) COMMODITIES with
  | none => .ok none
  | some _ =>
    match resp with
    | .error e => .error e
    | .ok data =>
      match data.data with
      | none => .ok none
      | some pts =>
        if pts.length = 0 then .ok none
        else .ok (some ((pts.take limit).map (fun d => ⟨d.date, d.value⟩)))

structure AnalysisChanges where
  day7 : Option ℚ
  day30 : Option ℚ
  day90 : Option ℚ

structure AnalysisMAs where
  ma7 : Option ℚ
  ma30 : Option ℚ

structure AnalysisVolatility where
  daily : Option ℝ
  level : VolLevel

structure AnalysisSignal where
  vs7dma : Signal
  vs30dma : Signal
  trend : Trend

structure CommodityAnalysis where
  commodity : String
  name : String
  category : String
  currentPrice : ℚ
  currentUnit : String
  currentDate : String
  changes : AnalysisChanges
  movingAverages : AnalysisMAs
  volatility : AnalysisVolatility
  signal : AnalysisSignal

/-- fetchAnalysis: looks up the catalog key, requests a daily series, takes
the newest 90 points and derives the analysis bundle. -/
noncomputable def fetchAnalysis (commodity : String)
    (resp : Except String CommodityData) :
    Except String (Option CommodityAnalysis) :=
  match assocFind (jsToLower commodity) COMMODITIES with
  | none => .ok none
  | some _ =>
    let info := assocFind (jsToLower commodity) COMMODITY_INFO
    match resp with
    | .error e => .error e
    | .ok data =>
      match data.data with
      | none => .ok none
      | some pts =>
        match pts with
        | [] => .ok none
        | latest :: _ =>
          let prices := (pts.take 90).map (fun d => d.value)
          let current := prices.getD 0 0
          let ma7 := calculateMA prices 7
          let ma30 := calculateMA prices 30
          .ok (some
            { commodity := jsToLower commodity
              name := data.name
              category := ((info.map (fun i => i.category)).getD "Unknown")
              currentPrice := current
              currentUnit := data.unit
              currentDate := latest.date
              changes := ⟨day7 prices, day30 prices, day90 prices⟩
              movingAverages := ⟨ma7.map round2, ma30.map round2⟩
              volatility := ⟨volatilityDaily prices,
                             getVolatilityLevel (calculateVolatility prices)⟩
              signal := ⟨getSignal current ma7, getSignal current ma30,
                         trendOf prices⟩ })

/-! ## The TTL cache (Cache in the cache source file). -/

structure CacheEntry (V : Type) where
  data : V
  timestamp : ℤ
  ttlMs : ℤ
deriving DecidableEq

/-- Lookup in the backing Map. -/
def findEntry {V : Type} (k : String) : List (String × CacheEntry V) → Option (CacheEntry V)
  | [] => none
  | (k', e) :: rest => if k' = k then some e else findEntry k rest

/-- Map.set: overwrite the entry in place, append when absent. -/
def setEntry {V : Type} (k : String) (e : CacheEntry V) :
    List (String × CacheEntry V) → List (String × CacheEntry V)
  | [] => [(k, e)]
  | (k', e') :: rest => if k' = k then (k, e) :: rest else (k', e') :: setEntry k e rest

structure Cache (V : Type) where
  store : List (String × CacheEntry V)
deriving DecidableEq

/-- Cache.get with an explicit clock now (milliseconds). The fetcher is the
producer: ok its resolved value, error its rejection. Returns the result,
the cache after the call, and whether the producer was invoked. -/
def Cache.get {V : Type} (c : Cache V) (key : String) (fetcher : Except String V)
    (ttlMs : ℤ) (now : ℤ) : Except String V × Cache V × Bool :=
  match findEntry key c.store with
  | some existing =>
    if now - existing.timestamp < existing.ttlMs then (.ok existing.data, c, false)
    else
      match fetcher with
      | .ok data => (.ok data, ⟨setEntry key ⟨data, now, ttlMs⟩ c.store⟩, true)
      | .error e => (.error e, c, false)
  | none =>
    match fetcher with
    | .ok data => (.ok data, ⟨setEntry key ⟨data, now, ttlMs⟩ c.store⟩, true)
    | .error e => (.error e, c, false)

/-- Cache.getAge with an explicit clock: Math.floor of (now - timestamp) / 1000,
or null when the key has no entry. A pure read: it takes the cache and returns
only the age, so the store is untouched by construction. -/
def Cache.getAge {V : Type} (c : Cache V) (key : String) (now : ℤ) : Option ℤ :=
  (findEntry key c.store).map (fun e => Rat.floor (((now - e.timestamp : ℤ) : ℚ) / 1000))

/-! ## Theorems -/

/-- Bridge between the executable floor on rationals and the floor of the
FloorRing instance. -/
theorem ratFloor_eq (x : ℚ) : Rat.floor x = ⌊x⌋ := by
  rw [Rat.floor_def, Rat.floor_def']

/-- C1: for every price series processed by getAnalysis, each change field
(k in 7, 30, 89) equals the percentage change (p0 - pk) / pk * 100 rounded to
2 decimals when the series has more than k elements and is null otherwise;
in particular at length exactly k the field is null and at length k + 1 it is
defined, so the null boundary falls exactly at length = k. -/
theorem change_fields_spec (p : List ℚ) :
    (day7 p = if 7 < p.length
      then some (round2 ((p.getD 0 0 - p.getD 7 0) / p.getD 7 0 * 100)) else none) ∧
    (day30 p = if 30 < p.length
      then some (round2 ((p.getD 0 0 - p.getD 30 0) / p.getD 30 0 * 100)) else none) ∧
    (day90 p = if 89 < p.length
      then some (round2 ((p.getD 0 0 - p.getD 89 0) / p.getD 89 0 * 100)) else none) ∧
    (p.length = 7 → day7 p = none) ∧
    (p.length = 30 → day30 p = none) ∧
    (p.length = 89 → day90 p = none) ∧
    (p.length = 8 → (day7 p).isSome) ∧
    (p.length = 31 → (day30 p).isSome) ∧
    (p.length = 90 → (day90 p).isSome) := by
  unfold day7 day30 day90 change7 change30 change90 calculateChange
  refine ⟨?_, ?_, ?_, ?_, ?_, ?_, ?_, ?_, ?_⟩
  · split <;> simp
  · split <;> simp
  · split <;> simp
  all_goals intro h; simp [h]

/-- C4: MA(period) is null exactly when the series has fewer than period
points, otherwise it is the arithmetic mean of the newest period points, and
any two sufficiently long series agreeing on their first period elements get
the same MA, so points beyond the window do not affect the result. -/
theorem calculateMA_spec (p : List ℚ) (period : ℕ) :
    (calculateMA p period = none ↔ p.length < period) ∧
    (period ≤ p.length →
      calculateMA p period = some ((p.take period).sum / (period : ℚ))) ∧
    (∀ q : List ℚ, period ≤ p.length → period ≤ q.length →
      p.take period = q.take period →
      calculateMA p period = calculateMA q period) := by
  refine ⟨?_, ?_, ?_⟩
  · unfold calculateMA; split <;> simp_all
  · intro h; unfold calculateMA; simp [Nat.not_lt.mpr h]
  · intro q hp hq hw
    unfold calculateMA
    simp [Nat.not_lt.mpr hp, Nat.not_lt.mpr hq, hw]

/-- C5 counterexample: a 31-point series with head 102004 over a flat 100000
tail has unrounded 7-day change 2.004, so the code classifies the trend as
bullish, while the reported rounded changes.day7 equals exactly 2, which is
not greater than 2 — refuting the claim that the trend classification is an
iff over the rounded reported change values. -/
theorem trend_rounded_cex :
    trendOf ((102004 : ℚ) :: List.replicate 30 100000) = .bullish ∧
    day7 ((102004 : ℚ) :: List.replicate 30 100000) = some 2 ∧
    day30 ((102004 : ℚ) :: List.replicate 30 100000) = some 2 ∧
    ¬((2 : ℚ) > 2) := by
  refine ⟨?_, ?_, ?_, by norm_num⟩
  · norm_num [trendOf, getTrend, change7, change30, calculateChange, List.getD]
  · norm_num [day7, change7, calculateChange, List.getD, round2, jsRound, ratFloor_eq]
  · norm_num [day30, change30, calculateChange, List.getD, round2, jsRound, ratFloor_eq]

/-- C5 (amended): signal.trend is unknown iff either the 7-day or the 30-day
change is null; otherwise it is classified from the unrounded change values
(not the rounded reported ones): bullish iff change7 > 2 and change30 > 0,
bearish iff change7 < -2 and change30 < 0, and neutral in all other cases. -/
theorem trend_spec (p : List ℚ) :
    (trendOf p = .unknown ↔ (change7 p = none ∨ change30 p = none)) ∧
    (∀ a b, change7 p = some a → change30 p = some b →
      ((trendOf p = .bullish ↔ (2 < a ∧ 0 < b)) ∧
       (trendOf p = .bearish ↔ (a < -2 ∧ b < 0)) ∧
       (trendOf p = .neutral ↔ (¬(2 < a ∧ 0 < b) ∧ ¬(a < -2 ∧ b < 0))))) := by
  unfold trendOf getTrend
  refine ⟨?_, ?_⟩
  · cases h7 : change7 p <;> cases h30 : change30 p <;>
      · simp
        try split_ifs <;> simp
  · intro a b h7 h30
    rw [h7, h30]
    have hnot : ¬((2 < a ∧ 0 < b) ∧ (a < -2 ∧ b < 0)) := by
      rintro ⟨⟨x1, _⟩, ⟨y1, _⟩⟩; linarith
    simp only [gt_iff_lt]
    refine ⟨?_, ?_, ?_⟩ <;> split_ifs with h1 h2 <;> simp_all

/-- Overwriting a key makes it map to exactly the new entry. -/
theorem findEntry_setEntry_self {V : Type} (k : String) (e : CacheEntry V)
    (s : List (String × CacheEntry V)) : findEntry k (setEntry k e s) = some e := by
  induction s with
  | nil => simp [setEntry, findEntry]
  | cons hd tl ih =>
    obtain ⟨k', e'⟩ := hd
    by_cases h : k' = k <;> simp [setEntry, findEntry, h, ih]

/-- C2: Cache.get serves the stored value without invoking the producer iff an
entry for the key exists and now minus its creation time is strictly below its
own ttl; otherwise it invokes the producer once, overwrites the entry for the
key with the fresh value, the current timestamp and the given ttl, and returns
the fresh value. Consequently a second call on the same key strictly within
the ttl returns the first value without invoking its producer, and a call at
or past the ttl invokes its producer again. -/
theorem cache_get_spec {V : Type} (c : Cache V) (key : String) (v w : V)
    (ttl t0 t1 : ℤ) :
    (∀ e, findEntry key c.store = some e → t0 - e.timestamp < e.ttlMs →
      Cache.get c key (.ok v) ttl t0 = (.ok e.data, c, false)) ∧
    (findEntry key c.store = none →
      Cache.get c key (.ok v) ttl t0 =
        (.ok v, ⟨setEntry key ⟨v, t0, ttl⟩ c.store⟩, true)) ∧
    (∀ e, findEntry key c.store = some e → e.ttlMs ≤ t0 - e.timestamp →
      Cache.get c key (.ok v) ttl t0 =
        (.ok v, ⟨setEntry key ⟨v, t0, ttl⟩ c.store⟩, true)) ∧
    (findEntry key (setEntry key ⟨v, t0, ttl⟩ c.store) = some ⟨v, t0, ttl⟩) ∧
    (t1 - t0 < ttl →
      Cache.get ⟨setEntry key ⟨v, t0, ttl⟩ c.store⟩ key (.ok w) ttl t1 =
        (.ok v, ⟨setEntry key ⟨v, t0, ttl⟩ c.store⟩, false)) ∧
    (ttl ≤ t1 - t0 →
      Cache.get ⟨setEntry key ⟨v, t0, ttl⟩ c.store⟩ key (.ok w) ttl t1 =
        (.ok w, ⟨setEntry key ⟨w, t1, ttl⟩ (setEntry key ⟨v, t0, ttl⟩ c.store)⟩,
         true)) := by
  refine ⟨?_, ?_, ?_, findEntry_setEntry_self key _ c.store, ?_, ?_⟩
  · intro e he hfresh
    simp [Cache.get, he, hfresh]
  · intro he
    simp [Cache.get, he]
  · intro e he hexp
    simp [Cache.get, he, Int.not_lt.mpr hexp]
  · intro hfresh
    simp [Cache.get, findEntry_setEntry_self, hfresh]
  · intro hexp
    simp [Cache.get, findEntry_setEntry_self, Int.not_lt.mpr hexp, setEntry]

/-- C8: Cache.getAge is null exactly when the key has no entry, and otherwise
reports the floor of the elapsed whole seconds since the entry was created —
0 for a fresh entry, and the same value for an entry whose ttl has expired
(the reported age ignores the ttl field entirely). The embedding of getAge
consumes the cache and returns only the age, so it cannot modify the store. -/
theorem cache_getAge_spec {V : Type} (c : Cache V) (key : String) (now : ℤ) :
    (Cache.getAge c key now = none ↔ findEntry key c.store = none) ∧
    (∀ e, findEntry key c.store = some e →
      Cache.getAge c key now = some ⌊(((now - e.timestamp : ℤ) : ℚ) / 1000)⌋) ∧
    (∀ e, findEntry key c.store = some e → e.timestamp = now →
      Cache.getAge c key now = some 0) ∧
    (∀ e, findEntry key c.store = some e → e.ttlMs ≤ now - e.timestamp →
      Cache.getAge c key now = some ⌊(((now - e.timestamp : ℤ) : ℚ) / 1000)⌋) ∧
    (∀ d ts tl1 tl2,
      Cache.getAge ⟨setEntry key ⟨d, ts, tl1⟩ c.store⟩ key now =
      Cache.getAge ⟨setEntry key ⟨d, ts, tl2⟩ c.store⟩ key now) := by
  refine ⟨?_, ?_, ?_, ?_, ?_⟩
  · unfold Cache.getAge
    cases h : findEntry key c.store <;> simp [h]
  · intro e he
    simp [Cache.getAge, he, ratFloor_eq]
  · intro e he hts
    simp [Cache.getAge, he, hts, ratFloor_eq]
  · intro e he _
    simp [Cache.getAge, he, ratFloor_eq]
  · intro d ts tl1 tl2
    simp [Cache.getAge, findEntry_setEntry_self]

/-- C9: when Cache.get misses (no entry, or the entry has aged to or past its
ttl) and the producer rejects, the store is returned exactly as it was — no
entry is created or overwritten, so a previously stored expired entry remains
— and the error propagates to the caller. -/
theorem cache_get_producer_error {V : Type} (c : Cache V) (key : String)
    (err : String) (ttl now : ℤ)
    (hmiss : ∀ e, findEntry key c.store = some e → e.ttlMs ≤ now - e.timestamp) :
    Cache.get c key (.error err) ttl now = (.error err, c, false) := by
  unfold Cache.get
  cases h : findEntry key c.store with
  | none => simp
  | some e => simp [Int.not_lt.mpr (hmiss e h)]

/-- Witness for C9: a store holding an entry expired at the call time; the
erroring producer propagates and the expired entry survives untouched. -/
theorem cache_get_producer_error_witness :
    Cache.get ({ store := [("k", ⟨7, 0, 1000⟩)] } : Cache ℕ) "k" (.error "boom")
        500 2000 =
      (.error "boom", ({ store := [("k", ⟨7, 0, 1000⟩)] } : Cache ℕ), false) :=
  cache_get_producer_error ⟨[("k", ⟨7, 0, 1000⟩)]⟩ "k" "boom" 500 2000 (by
    intro e he
    simp only [findEntry, if_true, Option.some.injEq] at he
    subst he
    decide)

/-- C6 counterexample: a provider response whose body is malformed JSON (the
json() call rejects) makes fetchCommodity and fetchHistorical propagate the
error rather than return the absent result, refuting the claim that such a
response is treated as no data. -/
theorem malformed_json_cex :
    fetchCommodity "wti" (.error "Unexpected token") = .error "Unexpected token" ∧
    fetchCommodity "wti" (.error "Unexpected token") ≠ .ok none ∧
    fetchHistorical "wti" (.error "Unexpected token") 12
      = .error "Unexpected token" ∧
    fetchHistorical "wti" (.error "Unexpected token") 12 ≠ .ok none := by
  refine ⟨rfl, ?_, rfl, ?_⟩ <;> decide

/-- C6 (amended): for a known symbol, a response whose JSON body lacks a data
array (as the provider's non-2xx error payloads do) or carries an empty one
is treated as no data and yields the absent result; a malformed-JSON body
instead makes the operation reject, propagating the parse error. -/
theorem transform_no_data_spec (commodity fn : String)
    (hc : assocFind (jsToLower commodity) COMMODITIES = some fn)
    (d : CommodityData) (limit : ℕ) :
    ((d.data = none ∨ d.data = some []) →
      fetchCommodity commodity (.ok d) = .ok none ∧
      fetchHistorical commodity (.ok d) limit = .ok none) ∧
    (∀ e, fetchCommodity commodity (.error e) = .error e ∧
      fetchHistorical commodity (.error e) limit = .error e) := by
  refine ⟨?_, ?_⟩
  · rintro (hd | hd) <;> simp [fetchCommodity, fetchHistorical, hc, hd]
  · intro e
    simp [fetchCommodity, fetchHistorical, hc]

/-- A provider body whose JSON parsed but carries no data array, as the
provider's error payloads do. -/
def noDataBody : CommodityData :=
  { name := "n", interval := "daily", unit := "u", data := none }

/-- Witness for C6: the known symbol wti with a data-less body and with a
malformed body. -/
theorem transform_no_data_spec_witness :
    ((noDataBody.data = none ∨ noDataBody.data = some []) →
      fetchCommodity "wti" (.ok noDataBody) = .ok none ∧
      fetchHistorical "wti" (.ok noDataBody) 12 = .ok none) ∧
    (∀ e, fetchCommodity "wti" (.error e) = .error e ∧
      fetchHistorical "wti" (.error e) 12 = .error e) :=
  transform_no_data_spec "wti" "WTI" (by decide) noDataBody 12

/-- Entries of an association list built by tagging each key of a key list
with a value computed from the key depend, at any key, only on the tagging
function's value at that key. -/
theorem assocFind_map_congr {β : Type} (c : String) (l : List String)
    (g g2 : String → β) (h : g c = g2 c) :
    assocFind c (l.map (fun k => (k, g k))) =
      assocFind c (l.map (fun k => (k, g2 k))) := by
  induction l with
  | nil => rfl
  | cons k tl ih =>
    by_cases hk : k = c <;> simp [assocFind, hk, h, ih]

/-- C7: fetchAllCommodities produces one entry per catalog symbol (all ten
keys except the pseudo-key all, regardless of any failures), each symbol's
entry depends only on that symbol's own provider outcome, a symbol whose
fetch throws is recorded as an error marker carrying the thrown message, and
a symbol whose fetch succeeds keeps its valid price entry even when other
symbols fail — so a per-symbol failure never aborts the batch. -/
theorem fetchAll_isolates_failures (rs rs2 : String → Except String CommodityData) :
    ((fetchAllCommodities rs).map Prod.fst =
      ["wti", "brent", "natural_gas", "copper", "aluminum", "wheat", "corn",
       "coffee", "cotton", "sugar"]) ∧
    (∀ c, rs c = rs2 c →
      assocFind c (fetchAllCommodities rs) = assocFind c (fetchAllCommodities rs2)) ∧
    (∀ c m, c ∈ (COMMODITIES.map Prod.fst).filter (fun k => k ≠ "all") →
      fetchCommodity c (rs c) = .error m →
      assocFind c (fetchAllCommodities rs) = some (.failure m)) ∧
    (∀ c p, c ∈ (COMMODITIES.map Prod.fst).filter (fun k => k ≠ "all") →
      fetchCommodity c (rs c) = .ok (some p) →
      assocFind c (fetchAllCommodities rs) = some (.price p)) := by
  refine ⟨by simp [fetchAllCommodities, COMMODITIES], ?_, ?_, ?_⟩
  · intro c h
    unfold fetchAllCommodities
    exact assocFind_map_congr c _ _ _ (by rw [h])
  · intro c m hc hf
    fin_cases hc <;> simp_all [fetchAllCommodities, COMMODITIES, assocFind]
  · intro c p hc hf
    fin_cases hc <;> simp_all [fetchAllCommodities, COMMODITIES, assocFind]

/-- C10: the catalog key all maps to a provider function in COMMODITIES but
has no COMMODITY_INFO entry; fetchAnalysis therefore accepts it, and on any
non-empty series returns an analysis whose category is the fallback string
Unknown, while the bulk fetchAllCommodities is the only operation that
excludes all from its iteration. -/
theorem all_key_analysis (d : CommodityData) (pts : List RawPoint)
    (hd : d.data = some pts) (hne : pts ≠ []) :
    assocFind "all" COMMODITIES = some "ALL_COMMODITIES" ∧
    assocFind "all" COMMODITY_INFO = none ∧
    (∃ a, fetchAnalysis "all" (.ok d) = .ok (some a) ∧ a.category = "Unknown") ∧
    (∀ rs, "all" ∉ (fetchAllCommodities rs).map Prod.fst) := by
  obtain ⟨latest, rest, rfl⟩ : ∃ l r, pts = l :: r := by
    cases pts with
    | nil => exact absurd rfl hne
    | cons l r => exact ⟨l, r, rfl⟩
  refine ⟨by decide, by decide, ?_, ?_⟩
  · have hl : jsToLower "all" = "all" := by decide
    refine ⟨{ commodity := jsToLower "all", name := d.name, category := "Unknown",
              currentPrice := (((latest :: rest).take 90).map (fun x => x.value)).getD 0 0,
              currentUnit := d.unit, currentDate := latest.date,
              changes := ⟨day7 (((latest :: rest).take 90).map (fun x => x.value)),
                          day30 (((latest :: rest).take 90).map (fun x => x.value)),
                          day90 (((latest :: rest).take 90).map (fun x => x.value))⟩,
              movingAverages :=
                ⟨(calculateMA (((latest :: rest).take 90).map (fun x => x.value)) 7).map round2,
                 (calculateMA (((latest :: rest).take 90).map (fun x => x.value)) 30).map round2⟩,
              volatility :=
                ⟨volatilityDaily (((latest :: rest).take 90).map (fun x => x.value)),
                 getVolatilityLevel
                   (calculateVolatility (((latest :: rest).take 90).map (fun x => x.value)))⟩,
              signal :=
                ⟨getSignal ((((latest :: rest).take 90).map (fun x => x.value)).getD 0 0)
                   (calculateMA (((latest :: rest).take 90).map (fun x => x.value)) 7),
                 getSignal ((((latest :: rest).take 90).map (fun x => x.value)).getD 0 0)
                   (calculateMA (((latest :: rest).take 90).map (fun x => x.value)) 30),
                 trendOf (((latest :: rest).take 90).map (fun x => x.value))⟩ }, ?_, rfl⟩
    simp [fetchAnalysis, hd, hl, COMMODITY_INFO, assocFind]
  · intro rs
    simp [fetchAllCommodities, COMMODITIES]

/-- Witness for C10: a one-point series for the key all. -/
theorem all_key_analysis_witness :
    assocFind "all" COMMODITIES = some "ALL_COMMODITIES" ∧
    assocFind "all" COMMODITY_INFO = none ∧
    (∃ a, fetchAnalysis "all"
        (.ok { name := "Global Commodities Index", interval := "daily",
               unit := "index", data := some [⟨"2024-01-05", 100⟩] })
        = .ok (some a) ∧ a.category = "Unknown") ∧
    (∀ rs, "all" ∉ (fetchAllCommodities rs).map Prod.fst) :=
  all_key_analysis
    { name := "Global Commodities Index", interval := "daily",
      unit := "index", data := some [⟨"2024-01-05", 100⟩] }
    [⟨"2024-01-05", 100⟩] rfl (by decide)

/-- The day-over-day relative returns of the spec, phrased over adjacent
pairs of the truncated window: r_i = (p_(i-1) - p_i) / p_i for
i = 1 .. min n 30 - 1. -/
def specReturns (p : List ℚ) : List ℚ :=
  List.zipWith (fun prev cur => (prev - cur) / cur) (p.take (min p.length 30))
    (p.take (min p.length 30)).tail

/-- The spec's volatility figure: population standard deviation of a list of
returns, expressed as a percentage. -/
noncomputable def popStdevPct (l : List ℚ) : ℝ :=
  Real.sqrt (((l.map (fun r => (r - l.sum / (l.length : ℚ)) ^ 2)).sum /
    (l.length : ℚ) : ℚ) : ℝ) * 100

/-- The index-driven returns loop of the source builds exactly the spec's
adjacent-pair returns over the truncated window. -/
theorem volReturns_eq_specReturns (p : List ℚ) : volReturns p = specReturns p := by
  have hm : min p.length 30 ≤ p.length := Nat.min_le_left _ _
  unfold volReturns specReturns
  apply List.ext_getElem
  · simp [List.length_zipWith, List.length_take]
  · intro i h1 h2
    have hlt : i < min p.length 30 - 1 := by simpa using h1
    have hi : i < p.length := by omega
    have hi1 : i + 1 < p.length := by omega
    simp only [List.getElem_map, List.getElem_range'_1, List.getElem_zipWith,
      List.getElem_tail, List.getElem_take]
    have e1 : 1 + i - 1 = i := by omega
    have e2 : 1 + i = i + 1 := by omega
    rw [e1, e2, List.getD_eq_getElem p 0 hi, List.getD_eq_getElem p 0 hi1]

/-- Rounding to 2 decimals keeps a non-negative real non-negative. -/
theorem round2R_nonneg {x : ℝ} (hx : 0 ≤ x) : 0 ≤ round2R x := by
  unfold round2R
  have h1 : (0 : ℤ) ≤ ⌊x * 100 + 1/2⌋ := Int.floor_nonneg.mpr (by positivity)
  exact div_nonneg (by exact_mod_cast h1) (by norm_num)

/-- C3: the volatility reported by getAnalysis is null exactly when the series
has fewer than 7 points; otherwise it is the population standard deviation of
the day-over-day relative returns over i = 1 .. min n 30 - 1 (the loop builds
exactly min n 30 - 1, hence at most 29, return values), times 100 and rounded
to 2 decimals, and the reported value is non-negative. -/
theorem volatility_spec (p : List ℚ) (_hpos : ∀ x ∈ p, 0 < x) :
    (volatilityDaily p = none ↔ p.length < 7) ∧
    (volReturns p).length = min p.length 30 - 1 ∧
    (7 ≤ p.length →
      volatilityDaily p = some (round2R (popStdevPct (specReturns p)))) ∧
    (∀ v, volatilityDaily p = some v → 0 ≤ v) := by
  refine ⟨?_, ?_, ?_, ?_⟩
  · unfold volatilityDaily calculateVolatility
    split <;> simp_all
  · simp [volReturns]
  · intro h7
    unfold volatilityDaily calculateVolatility
    rw [if_neg (by omega)]
    simp only [Option.map_some']
    rw [← volReturns_eq_specReturns]
    unfold popStdevPct listVariance listMean
    rfl
  · intro v hv
    unfold volatilityDaily calculateVolatility at hv
    by_cases h : p.length < 7
    · simp [h] at hv
    · rw [if_neg h] at hv
      simp only [Option.map_some', Option.some.injEq] at hv
      subst hv
      exact round2R_nonneg (mul_nonneg (Real.sqrt_nonneg _) (by norm_num))

/-- Witness for C3: a flat 7-point positive series has 6 zero returns, zero
variance, and therefore reported volatility exactly 0. -/
theorem volatility_spec_witness :
    ((volatilityDaily [1, 1, 1, 1, 1, 1, 1] = none ↔
        ([1, 1, 1, 1, 1, 1, 1] : List ℚ).length < 7) ∧
      (volReturns [1, 1, 1, 1, 1, 1, 1]).length =
        min ([1, 1, 1, 1, 1, 1, 1] : List ℚ).length 30 - 1 ∧
      (7 ≤ ([1, 1, 1, 1, 1, 1, 1] : List ℚ).length →
        volatilityDaily [1, 1, 1, 1, 1, 1, 1] =
          some (round2R (popStdevPct (specReturns [1, 1, 1, 1, 1, 1, 1])))) ∧
      (∀ v, volatilityDaily [1, 1, 1, 1, 1, 1, 1] = some v → 0 ≤ v)) ∧
    volatilityDaily [1, 1, 1, 1, 1, 1, 1] = some 0 :=
  ⟨volatility_spec [1, 1, 1, 1, 1, 1, 1] (by decide), by
    have hr : volReturns [1, 1, 1, 1, 1, 1, 1] = [0, 0, 0, 0, 0, 0] := by
      norm_num [volReturns, List.range', List.getD]
    have hv : listVariance [0, 0, 0, 0, 0, 0] = 0 := by
      norm_num [listVariance, listMean]
    simp [volatilityDaily, calculateVolatility, hr, hv, round2R]
    norm_num⟩

end CommoditiesPulse
